import Mathlib

/-!
Verification development for the MediView segmentation backend.

Each Python module used by the claims is shallowly embedded:
Python strings are modelled as lists of characters, dictionaries as
association lists or functions, filesystem effects as explicit state
records, and exceptions as Except values.  The definitions follow the
source files under src/Backend/src; line references are given in the
comments.
-/

set_option maxRecDepth 4000

/-- A Python string (filename), modelled as its list of characters. -/
abbrev Filename := List Char

/-- Python str.lower applied characterwise. -/
def lowerName (s : Filename) : Filename := s.map Char.toLower

/-- Matching an end-anchored literal regular expression such as
r"t1c\.nii\.gz$" against a string: re.search succeeds exactly when the
literal (dots unescaped) is a suffix of the string. -/
def endsWithPat (s pat : Filename) : Bool := pat.isSuffixOf s

/-- The four MRI modalities of nifti_validation.py. -/
inductive Modality
  | t1c
  | t1n
  | t2w
  | t2f
deriving DecidableEq, Repr, Fintype

/-- Iteration order of the MODALITY_PATTERNS dictionary (Python dicts
iterate in insertion order): t1c, t1n, t2w, t2f
(nifti_validation.py lines 18-52). -/
def modalityOrder : List Modality := [.t1c, .t1n, .t2w, .t2f]

/-- MODALITY_PATTERNS (nifti_validation.py lines 18-52).  Every pattern is
an end-anchored literal, recorded here without the regex escapes. -/
def MODALITY_PATTERNS : Modality → List Filename
  | .t1c =>
      ["t1c.nii.gz".toList, "t1_c.nii.gz".toList, "t1-c.nii.gz".toList,
       "t1ce.nii.gz".toList, "t1_ce.nii.gz".toList, "t1-ce.nii.gz".toList,
       "t1_contrast.nii.gz".toList, "t1_gd.nii.gz".toList]
  | .t1n =>
      ["t1n.nii.gz".toList, "t1_n.nii.gz".toList, "t1-n.nii.gz".toList,
       "t1.nii.gz".toList, "t1_native.nii.gz".toList]
  | .t2w =>
      ["t2w.nii.gz".toList, "t2_w.nii.gz".toList, "t2-w.nii.gz".toList,
       "t2.nii.gz".toList, "t2_weighted.nii.gz".toList]
  | .t2f =>
      ["t2f.nii.gz".toList, "t2_f.nii.gz".toList, "t2-f.nii.gz".toList,
       "t2_flair.nii.gz".toList, "t2-flair.nii.gz".toList,
       "flair.nii.gz".toList, "t2_fluid.nii.gz".toList]

/-- identify_modality (nifti_validation.py lines 55-72): lowercase the
filename, then return the first modality one of whose patterns matches;
None when no pattern matches. -/
def identify_modality (filename : Filename) : Option Modality :=
  let fl := lowerName filename
  modalityOrder.find? (fun m => (MODALITY_PATTERNS m).any (fun p => endsWithPat fl p))

/-- The validation errors appended to result["validation_errors"], as
structured values in place of the Romanian message strings. -/
inductive VError
  | folderMissing
  | noNifti
  | duplicate (m : Modality) (first dup : Filename)
  | missing (ms : List Modality)
deriving DecidableEq, Repr

/-- The validation report dictionary built by validate_segmentation_files
(nifti_validation.py lines 85-92). -/
structure Report where
  is_valid : Bool
  found_modalities : List (Modality × Filename)
  missing_modalities : List Modality
  extra_files : List Filename
  total_nifti_files : Nat
  validation_errors : List VError
deriving DecidableEq, Repr

/-- A study folder as the validator sees it: whether the path exists and
is a directory, and the entries in the order the filesystem lists them. -/
structure Folder where
  present : Bool
  entries : List Filename
deriving DecidableEq, Repr

/-- The nifti-file listing of nifti_validation.py line 100:
list(folder.glob("*.nii.gz")) + list(folder.glob("*.nii")), each glob in
filesystem order (pathlib.glob does not sort). -/
def globNifti (entries : List Filename) : List Filename :=
  entries.filter (fun f => endsWithPat f ".nii.gz".toList) ++
    entries.filter (fun f => endsWithPat f ".nii".toList)

/-- The identification loop of nifti_validation.py lines 111-124, carried
out over the file list with the three accumulators (first-wins mapping,
unidentified files, errors). -/
def processFiles : List Filename → List (Modality × Filename) →
    List Filename → List VError →
    List (Modality × Filename) × List Filename × List VError
  | [], found, extra, errs => (found, extra, errs)
  | f :: rest, found, extra, errs =>
    match identify_modality f with
    | some m =>
      match found.find? (fun q => q.1 = m) with
      | some q => processFiles rest found extra (errs ++ [.duplicate m q.2 f])
      | none => processFiles rest (found ++ [(m, f)]) extra errs
    | none => processFiles rest found (extra ++ [f]) errs

/-- Membership of a modality in the found mapping. -/
def foundHas (found : List (Modality × Filename)) (m : Modality) : Bool :=
  (found.find? (fun q => q.1 = m)).isSome

/-- validate_segmentation_files (nifti_validation.py lines 75-157).  The
missing-modalities set difference is listed in the fixed required order
(the Python code lists a set, whose order is unspecified). -/
def validate_segmentation_files (fd : Folder) : Report :=
  if ¬ fd.present then
    { is_valid := false, found_modalities := [], missing_modalities := [],
      extra_files := [], total_nifti_files := 0,
      validation_errors := [.folderMissing] }
  else
    let nifti := globNifti fd.entries
    if nifti.isEmpty then
      { is_valid := false, found_modalities := [], missing_modalities := [],
        extra_files := [], total_nifti_files := 0,
        validation_errors := [.noNifti] }
    else
      let r := processFiles nifti [] [] []
      let missing := modalityOrder.filter (fun m => ¬ foundHas r.1 m)
      { is_valid := missing.isEmpty,
        found_modalities := r.1,
        missing_modalities := missing,
        extra_files := r.2.1,
        total_nifti_files := nifti.length,
        validation_errors :=
          if missing.isEmpty then r.2.2 else r.2.2 ++ [.missing missing] }

example : identify_modality "BraTS-t1c.nii.gz".toList = some .t1c := by decide

example : identify_modality "brain_flair.nii.gz".toList = some .t2f := by decide

example : identify_modality "brain_t1n.nii".toList = none := by decide

/-!
Embedding of src/Backend/src/core/config.py (the constants the claims
touch) and src/Backend/src/utils/file_utils.py.
-/

/-- ALLOWED_EXTENSIONS (config.py line 29).  The Python value is a set;
is_allowed_file only asks whether any element is a suffix, so the listing
order is irrelevant. -/
def ALLOWED_EXTENSIONS : List Filename :=
  [".nii".toList, ".nii.gz".toList, ".zip".toList]

/-- MAX_FILE_SIZE default (config.py line 28): 500 MB in bytes. -/
def MAX_FILE_SIZE : Nat := 500 * 1024 * 1024

/-- NUM_CHANNELS (config.py line 39). -/
abbrev NUM_CHANNELS : Nat := 4

/-- NUM_CLASSES (config.py line 40). -/
abbrev NUM_CLASSES : Nat := 5

/-- is_allowed_file (file_utils.py lines 16-18): the lowercased filename
ends with one of the allowed extensions. -/
def is_allowed_file (filename : Filename) : Bool :=
  ALLOWED_EXTENSIONS.any (fun ext => endsWithPat (lowerName filename) ext)

/-- An uploaded file as validate_file sees it: the declared name (empty
list models a missing or empty name, both falsy in Python) and the
advertised size (none when the transport does not supply one). -/
structure UploadFile where
  filename : Filename
  size : Option Nat
deriving DecidableEq, Repr

/-- The three HTTPException(400) raises of validate_file. -/
inductive UploadErr
  | noName
  | badExtension
  | tooLarge
deriving DecidableEq, Repr

/-- Every error raised by validate_file carries HTTP status 400
(file_utils.py lines 160, 165, 172). -/
def uploadErrStatus : UploadErr → Nat := fun _ => 400

/-- validate_file (file_utils.py lines 148-175), with maxSize standing
for the configured MAX_FILE_SIZE.  The size check mirrors the Python
truthiness test: "if file.size and file.size > MAX_FILE_SIZE". -/
def validate_file (maxSize : Nat) (f : UploadFile) : Except UploadErr Unit :=
  if f.filename.isEmpty then .error .noName
  else if ¬ is_allowed_file f.filename then .error .badExtension
  else
    match f.size with
    | some n => if ¬ n = 0 ∧ maxSize < n then .error .tooLarge else .ok ()
    | none => .ok ()

/-- One entry of a ZIP archive: its basename and whether the member is a
directory entry. -/
structure ZipEntry where
  name : Filename
  isDirEntry : Bool
deriving DecidableEq, Repr

/-- The entry filter of extract_zip_file (file_utils.py lines 63-75):
directory entries and hidden or system names (leading "." or "__") are
skipped. -/
def skippedEntry (e : ZipEntry) : Bool :=
  e.isDirEntry || ['.'].isPrefixOf e.name || ['_', '_'].isPrefixOf e.name

/-- How opening and reading the archive can go: the archive is corrupt
(zipfile.BadZipFile from the ZipFile constructor), some entry write fails
with a generic exception, or all listed entries are read successfully. -/
inductive ZipRead
  | corruptArchive
  | entryFailure
  | archiveEntries (l : List ZipEntry)
deriving DecidableEq, Repr

/-- Errors raised out of extract_zip_file. -/
inductive ExtractErr
  | corruptZip
  | extractionFailed
deriving DecidableEq, Repr

/-- The filesystem facts the claim observes after extract_zip_file
returns or raises: whether the freshly created extraction directory still
exists and whether the original archive file still exists. -/
structure ExtractFS where
  extractDirKept : Bool
  zipFileKept : Bool
deriving DecidableEq, Repr

/-- extract_zip_file (file_utils.py lines 26-145).  The extraction
directory is created (mkdir, line 52) before the archive is opened
(line 57), so it exists on every path below.
On zipfile.BadZipFile the handler at line 136 re-raises a generic
Exception; a sibling except clause of the same try statement does not
catch an exception raised inside another handler, so the cleanup handler
at lines 138-145 never runs for this path and the directory is kept.
On any other exception that handler removes the directory
(shutil.rmtree, line 142).  The archive itself is unlinked (line 109)
only after all entries were extracted. -/
def extract_zip_file (z : ZipRead) : Except ExtractErr (List Filename) × ExtractFS :=
  match z with
  | .corruptArchive =>
      (.error .corruptZip, { extractDirKept := true, zipFileKept := true })
  | .entryFailure =>
      (.error .extractionFailed, { extractDirKept := false, zipFileKept := true })
  | .archiveEntries l =>
      let kept := (l.filter (fun e => ¬ skippedEntry e)).map (fun e => e.name)
      (.ok kept, { extractDirKept := true, zipFileKept := false })

/-- The outcome tag save_file reports for a ZIP upload
(file_utils.py lines 206-232): extraction success yields type
"zip_extracted"; an extraction error is caught, the original archive is
kept and type "zip_failed" is returned. -/
inductive SaveOutcome
  | zipExtracted
  | zipFailed (e : ExtractErr)
deriving DecidableEq, Repr

/-- The ZIP branch of save_file (file_utils.py lines 206-232). -/
def save_file_zip (z : ZipRead) : SaveOutcome × ExtractFS :=
  match extract_zip_file z with
  | (.ok _, fs) => (.zipExtracted, fs)
  | (.error e, fs) => (.zipFailed e, fs)

/-!
Embedding of src/Backend/src/ml/model_wrapper.py.  The predictor object
is abstracted to an Option Unit (present or deleted); accelerator-cache
and garbage-collection calls have no observable effect on the modelled
state and are folded into the cleanup event.  Every operation returns,
besides its result and the successor state, the list of lifecycle events
it performed, in order.
-/

/-- The mutable attributes of MedNeXtWrapper the claims observe
(model_wrapper.py lines 33-39). -/
structure WState where
  model : Option Unit
  is_loaded : Bool
  inference_count : Nat
  max_inferences_before_cleanup : Nat
deriving DecidableEq, Repr

/-- Lifecycle events, in the order they happen inside an operation. -/
inductive Ev
  | cleanup
  | modelLoad
  | innerForward
deriving DecidableEq, Repr

/-- The freshly constructed wrapper (model_wrapper.py lines 33-39):
nothing loaded, inference_count 0, cleanup threshold 5. -/
def initWrapper : WState :=
  { model := none, is_loaded := false, inference_count := 0,
    max_inferences_before_cleanup := 5 }

/-- force_gpu_cleanup (model_wrapper.py lines 95-192): deletes the model
reference (self.model = None) and clears caches.  It does not touch
is_loaded or inference_count. -/
def force_gpu_cleanup (s : WState) : WState × List Ev :=
  ({ s with model := none }, [.cleanup])

/-- load_model (model_wrapper.py lines 194-271).  loadOk abstracts the
checkpoint file existing and torch.load plus load_state_dict succeeding.
A preventive force_gpu_cleanup runs first when is_loaded is set
(lines 211-213); on success the counter is reset and is_loaded set
(lines 247-248); on failure the except clause at lines 263-271 runs
force_gpu_cleanup and clears model and is_loaded. -/
def load_model (loadOk : Bool) (s : WState) : Bool × WState × List Ev :=
  let p := if s.is_loaded then force_gpu_cleanup s else (s, [])
  if loadOk then
    (true,
     { p.1 with model := some (), inference_count := 0, is_loaded := true },
     p.2 ++ [.modelLoad])
  else
    let q := force_gpu_cleanup p.1
    (false, { q.1 with model := none, is_loaded := false }, p.2 ++ q.2)

/-- The errors predict can raise. -/
inductive PredictErr
  | notLoaded
  | badChannels
  | reloadFailed
  | inferenceError
deriving DecidableEq, Repr

/-- The tail of predict from the inner forward call onward
(model_wrapper.py lines 313-350): on success the counter is incremented
(line 334); on an exception the except clause runs force_gpu_cleanup and
re-raises (lines 342-350). -/
def predictInner (innerOk : Bool) (s : WState) (evs : List Ev) :
    Except PredictErr Unit × WState × List Ev :=
  if innerOk then
    (.ok (), { s with inference_count := s.inference_count + 1 },
     evs ++ [.innerForward])
  else
    let q := force_gpu_cleanup s
    (.error .inferenceError, q.1, evs ++ [.innerForward] ++ q.2)

/-- predict (model_wrapper.py lines 273-350).  channels is the size of
the input tensor along dimension 1; innerOk abstracts the inner
self.model(input_tensor) call succeeding; loadOk feeds the reload that a
reached cleanup threshold triggers.  A ValueError from the channel check
(lines 292-296) and a RuntimeError from a failed reload (lines 306-307)
are both caught by the same except clause as an inner failure, which
runs force_gpu_cleanup before re-raising. -/
def predict (innerOk loadOk : Bool) (channels : Nat) (s : WState) :
    Except PredictErr Unit × WState × List Ev :=
  if ¬ s.is_loaded ∨ s.model = none then (.error .notLoaded, s, [])
  else if ¬ channels = NUM_CHANNELS then
    let q := force_gpu_cleanup s
    (.error .badChannels, q.1, q.2)
  else if s.max_inferences_before_cleanup ≤ s.inference_count then
    let a := force_gpu_cleanup s
    let b := load_model loadOk a.1
    if b.1 then predictInner innerOk b.2.1 (a.2 ++ b.2.2)
    else
      let q := force_gpu_cleanup b.2.1
      (.error .reloadFailed, q.1, a.2 ++ b.2.2 ++ q.2)
  else predictInner innerOk s []

/-- ensure_model_loaded (model_wrapper.py lines 470-480): load only when
is_loaded is not set, otherwise a no-op returning True. -/
def ensure_model_loaded (loadOk : Bool) (s : WState) : Bool × WState × List Ev :=
  if ¬ s.is_loaded then load_model loadOk s else (true, s, [])

/-- unload_model (model_wrapper.py lines 387-410): force_gpu_cleanup,
then reset is_loaded and the counter. -/
def unload_model (s : WState) : Bool × WState × List Ev :=
  let q := force_gpu_cleanup s
  (true, { q.1 with is_loaded := false, inference_count := 0 }, q.2)

/-!
Embedding of src/Backend/src/services/inference.py: the cache probe and
the branching structure of run_inference_pipeline.
-/

/-- The results/<folder_name> directory: none when it does not exist,
otherwise its file listing in filesystem order. -/
structure ResultsFolder where
  listing : Option (List Filename)
deriving DecidableEq, Repr

/-- check_existing_result (inference.py lines 24-52): pick the first
file matching glob "*-seg.nii.gz" and the first matching
"*-overlay.nii.gz"; both none when the folder is absent. -/
def check_existing_result (rf : ResultsFolder) : Option Filename × Option Filename :=
  match rf.listing with
  | none => (none, none)
  | some files =>
      (files.find? (fun f => endsWithPat f "-seg.nii.gz".toList),
       files.find? (fun f => endsWithPat f "-overlay.nii.gz".toList))

/-- The pipeline stages of run_inference_pipeline, in source order. -/
inductive Stage
  | preprocessStage
  | predictStage
  | postprocessStage
  | overlayStage
  | saveStage
deriving DecidableEq, Repr

/-- Success or failure of each stage, abstracting the bodies of the
numbered steps inside the try block of run_inference_pipeline. -/
structure StageOutcomes where
  preOk : Bool
  predOk : Bool
  postOk : Bool
  overlayOk : Bool
  saveOk : Bool
deriving DecidableEq, Repr

/-- The fields of the result dictionary the claim observes. -/
structure PipeResult where
  success : Bool
  cached : Bool
  saved_path : Option Filename
  overlay_path : Option Filename
deriving DecidableEq, Repr

/-- The save paths produced on the processing path (step 5); their exact
shape is irrelevant to the claims, only that they are the new files and
not the cached ones. -/
def newSegPath (folderName : Filename) : Filename :=
  folderName ++ "-seg.nii.gz".toList

/-- Overlay path written on the processing path. -/
def newOverlayPath (folderName : Filename) : Filename :=
  folderName ++ "-overlay.nii.gz".toList

/-- The error result built by the except clause of run_inference_pipeline
(inference.py lines 306-316). -/
def pipelineErrorResult : PipeResult :=
  { success := false, cached := false, saved_path := none, overlay_path := none }

/-- run_inference_pipeline (inference.py lines 120-316), returning the
result dictionary together with the stages that were entered, in order.
With force_reprocess false the cache probe runs first (lines 139-169);
a hit returns the cached result carrying the existing paths before any
stage is entered.  Otherwise the try block runs preprocess, predict and
postprocess in order, the overlay stage when create_overlay is set
(lines 225-243), and the save stage when save_result is set
(lines 245-270); the first failing stage aborts into the except clause. -/
def run_inference_pipeline (rf : ResultsFolder) (env : StageOutcomes)
    (folderName : Filename)
    (save_result force_reprocess create_overlay : Bool) :
    PipeResult × List Stage :=
  let probe := check_existing_result rf
  if ¬ force_reprocess ∧ probe.1.isSome ∧ (¬ create_overlay ∨ probe.2.isSome) then
    ({ success := true, cached := true, saved_path := probe.1,
       overlay_path := probe.2 }, [])
  else
    if ¬ env.preOk then (pipelineErrorResult, [.preprocessStage])
    else if ¬ env.predOk then (pipelineErrorResult, [.preprocessStage, .predictStage])
    else if ¬ env.postOk then
      (pipelineErrorResult, [.preprocessStage, .predictStage, .postprocessStage])
    else if create_overlay ∧ ¬ env.overlayOk then
      (pipelineErrorResult,
       [.preprocessStage, .predictStage, .postprocessStage, .overlayStage])
    else if save_result ∧ ¬ env.saveOk then
      (pipelineErrorResult,
       [.preprocessStage, .predictStage, .postprocessStage] ++
         (if create_overlay then [.overlayStage] else []) ++ [.saveStage])
    else
      ({ success := true, cached := false,
         saved_path := if save_result then some (newSegPath folderName) else none,
         overlay_path :=
           if save_result ∧ create_overlay then some (newOverlayPath folderName)
           else none },
       [.preprocessStage, .predictStage, .postprocessStage] ++
         (if create_overlay then [.overlayStage] else []) ++
         (if save_result then [.saveStage] else []))

/-!
Embedding of src/Backend/src/services/postprocess.py.  A tensor of shape
(C, H, W, D) is a function from the channel index and the voxel position;
a segmentation volume is a natural-valued function on voxel positions.
The scipy operations (binary_opening, binary_fill_holes, label) all use
the default rank-1 structuring element, which is 6-connectivity in 3D,
with border_value 0 (outside the array counts as background).
-/

/-- A voxel position in an a-by-b-by-c grid. -/
abbrev Vox (a b c : Nat) := Fin a × Fin b × Fin c

/-- A labeled (integer) volume. -/
abbrev Seg (a b c : Nat) := Vox a b c → Nat

/-- A binary mask. -/
abbrev Mask (a b c : Nat) := Vox a b c → Bool

/-- 6-connectivity: the coordinates differ by one along exactly one axis. -/
def adj6 {a b c : Nat} (v w : Vox a b c) : Bool :=
  ((v.1 : Int) - w.1).natAbs + ((v.2.1 : Int) - w.2.1).natAbs +
    ((v.2.2 : Int) - w.2.2).natAbs = 1

/-- Number of grid neighbours of a voxel; interior voxels have 6, voxels
on a face fewer (their missing neighbours lie outside the array and read
as the border value 0). -/
def gridDegree {a b c : Nat} (v : Vox a b c) : Nat :=
  (Finset.univ.filter (fun w => adj6 v w = true)).card

/-- scipy binary_erosion with the cross structuring element and
border_value 0: a voxel survives when it is set and all six neighbours
(which must all lie inside the array) are set. -/
def binary_erosion {a b c : Nat} (m : Mask a b c) : Mask a b c :=
  fun v => m v && decide (gridDegree v = 6) &&
    decide (∀ w, adj6 v w = true → m w = true)

/-- scipy binary_dilation with the cross structuring element: a voxel is
set when it or any grid neighbour is set. -/
def binary_dilation {a b c : Nat} (m : Mask a b c) : Mask a b c :=
  fun v => m v || decide (∃ w, adj6 v w = true ∧ m w = true)

/-- scipy binary_opening with the given iteration count: erosion
iterated, then dilation iterated. -/
def binary_opening {a b c : Nat} (iter : Nat) (m : Mask a b c) : Mask a b c :=
  binary_dilation^[iter] (binary_erosion^[iter] m)

/-- Grid neighbours of a set of voxels. -/
def neighborsOf {a b c : Nat} (s : Finset (Vox a b c)) : Finset (Vox a b c) :=
  Finset.univ.filter (fun v => ∃ w ∈ s, adj6 w v = true)

/-- One expansion step of a flood fill restricted to voxels satisfying
ok. -/
def reachStep {a b c : Nat} (ok : Mask a b c) (s : Finset (Vox a b c)) :
    Finset (Vox a b c) :=
  s ∪ (neighborsOf s).filter (fun v => ok v = true)

/-- Flood fill to a fixed point: the number of voxels bounds the number
of useful expansion steps. -/
def floodFrom {a b c : Nat} (ok : Mask a b c) (start : Finset (Vox a b c)) :
    Finset (Vox a b c) :=
  (reachStep ok)^[a * b * c] start

/-- Voxels on the boundary of the array (some neighbour lies outside). -/
def borderVoxels (a b c : Nat) : Finset (Vox a b c) :=
  Finset.univ.filter (fun v => ¬ gridDegree v = 6)

/-- scipy binary_fill_holes: background voxels not reachable from the
outside of the array through background are filled. -/
def binary_fill_holes {a b c : Nat} (m : Mask a b c) : Mask a b c :=
  let outside := floodFrom (fun v => ! m v)
    ((borderVoxels a b c).filter (fun v => (! m v) = true))
  fun v => m v || decide (v ∉ outside)

/-- The connected component of a voxel inside a mask, under
6-connectivity; this is the set of voxels scipy label assigns the same
component id as v. -/
def labelComponent {a b c : Nat} (m : Mask a b c) (v : Vox a b c) :
    Finset (Vox a b c) :=
  floodFrom m {v}

/-- MIN_COMPONENT_SIZE (postprocess.py lines 33-38), including the
dict.get default of 50 (line 182). -/
def MIN_COMPONENT_SIZE (cl : Nat) : Nat :=
  if cl = 1 then 50 else if cl = 2 then 100 else if cl = 3 then 20
  else if cl = 4 then 30 else 50

/-- MORPHOLOGICAL_ITERATIONS (postprocess.py lines 40-45), including the
dict.get default of 1 (line 133). -/
def MORPHOLOGICAL_ITERATIONS (cl : Nat) : Nat := if cl = 2 then 2 else 1

/-- The foreground classes range(1, NUM_CLASSES) = [1, 2, 3, 4]. -/
def fgClasses : List Nat := (List.range NUM_CLASSES).drop 1

/-- The body of the per-class loop of apply_morphological_operations
(postprocess.py lines 120-147): skip an absent class (the membership test
and the empty-mask test coincide); otherwise open the class mask with the
class-specific iteration count, optionally fill holes, then clear the old
mask and write the class label onto the cleaned mask. -/
def morphStep {a b c : Nat} (fill_holes : Bool) (p : Seg a b c) (cl : Nat) :
    Seg a b c :=
  if ∀ v, ¬ p v = cl then p
  else
    let mask : Mask a b c := fun v => decide (p v = cl)
    let opened := binary_opening (MORPHOLOGICAL_ITERATIONS cl) mask
    let cleaned := if fill_holes then binary_fill_holes opened else opened
    fun v => if cleaned v then cl else if mask v then 0 else p v

/-- apply_morphological_operations (postprocess.py lines 103-147). -/
def apply_morphological_operations {a b c : Nat}
    (apply_morphological fill_holes : Bool) (p : Seg a b c) : Seg a b c :=
  if apply_morphological then (fgClasses.foldl (morphStep fill_holes) p) else p

/-- The body of the per-class loop of remove_small_connected_components
(postprocess.py lines 166-197): skip an absent class; otherwise zero
every voxel of the class whose connected component within the class mask
is smaller than the class minimum (each scipy label component is such a
connected component, and each is zeroed exactly when its size is below
the minimum). -/
def removeStep {a b c : Nat} (p : Seg a b c) (cl : Nat) : Seg a b c :=
  if ∀ v, ¬ p v = cl then p
  else
    fun v =>
      if p v = cl ∧
          (labelComponent (fun w => decide (p w = cl)) v).card <
            MIN_COMPONENT_SIZE cl then 0
      else p v

/-- remove_small_connected_components (postprocess.py lines 149-199). -/
def remove_small_connected_components {a b c : Nat}
    (remove_small_components : Bool) (p : Seg a b c) : Seg a b c :=
  if remove_small_components then fgClasses.foldl removeStep p else p

/-- torch.argmax over the class dimension: the first index attaining the
maximum. -/
def torchArgmax (f : Fin NUM_CLASSES → ℚ) : Fin NUM_CLASSES :=
  (List.finRange NUM_CLASSES).foldl (fun best i => if f best < f i then i else best) 0

/-- torch.softmax along the class dimension.  The exponential map of the
float implementation is abstracted as the parameter expF. -/
def torchSoftmax (expF : ℚ → ℚ) (f : Fin NUM_CLASSES → ℚ) (i : Fin NUM_CLASSES) : ℚ :=
  expF (f i) / Finset.univ.sum (fun j => expF (f j))

/-- convert_predictions_to_classes (postprocess.py lines 73-101) for a
channel-first (C, H, W, D) prediction tensor: softmax along the class
dimension, then argmax. -/
def convert_predictions_to_classes {a b c : Nat} (expF : ℚ → ℚ)
    (pred : Fin NUM_CLASSES → Vox a b c → ℚ) : Seg a b c :=
  fun v => (torchArgmax (fun i => torchSoftmax expF (fun j => pred j v) i)).val

/-- convert_predictions_to_classes for a batched (B, C, H, W, D) tensor
followed by the [0]-indexing of postprocess_segmentation line 222: the
softmax-argmax is applied per batch element and the first element kept. -/
def convert_predictions_batched {n a b c : Nat} (expF : ℚ → ℚ)
    (pred : Fin (n + 1) → Fin NUM_CLASSES → Vox a b c → ℚ) : Seg a b c :=
  fun v => (torchArgmax (fun i => torchSoftmax expF (fun j => pred 0 j v) i)).val

/-- postprocess_segmentation (postprocess.py lines 201-261) on a
(C, H, W, D) prediction tensor (the path through the dim-4 branch of
convert_predictions_to_classes): class conversion, morphological
cleanup, small-component removal.  The three flags are the constructor
arguments; create_postprocessor (lines 324-339) passes true for all. -/
def postprocess_segmentation {a b c : Nat} (expF : ℚ → ℚ)
    (apply_morphological remove_small_components fill_holes : Bool)
    (pred : Fin NUM_CLASSES → Vox a b c → ℚ) : Seg a b c :=
  remove_small_connected_components remove_small_components
    (apply_morphological_operations apply_morphological fill_holes
      (convert_predictions_to_classes expF pred))

/-- postprocess_segmentation on a batched (B, C, H, W, D) tensor. -/
def postprocess_segmentation_batched {n a b c : Nat} (expF : ℚ → ℚ)
    (apply_morphological remove_small_components fill_holes : Bool)
    (pred : Fin (n + 1) → Fin NUM_CLASSES → Vox a b c → ℚ) : Seg a b c :=
  remove_small_connected_components remove_small_components
    (apply_morphological_operations apply_morphological fill_holes
      (convert_predictions_batched expF pred))

/-!
Helper lemmas.
-/

/-- Of two suffixes of the same list, the shorter is a suffix of the
longer. -/
theorem suffix_of_suffix_length_le {l₁ l₂ l₃ : List Char}
    (h₁ : l₁ <:+ l₃) (h₂ : l₂ <:+ l₃) (h : l₁.length ≤ l₂.length) : l₁ <:+ l₂ := by
  rw [← List.reverse_prefix] at h₁ h₂ ⊢
  exact List.prefix_of_prefix_length_le h₁ h₂ (by simpa using h)

/-- Every modality pattern ends in ".nii.gz". -/
theorem pattern_ends_nii_gz :
    ∀ m : Modality, ∀ p ∈ MODALITY_PATTERNS m,
      ".nii.gz".toList.isSuffixOf p = true := by decide

/-- A name ending in ".nii" matches no modality pattern: every pattern is
anchored to the ".nii.gz" suffix, and a string cannot end in both ".nii"
and ".nii.gz". -/
theorem identify_modality_nii_none (f : Filename)
    (h : ".nii".toList <:+ f) : identify_modality f = none := by
  rw [identify_modality, List.find?_eq_none]
  intro m _ hany
  obtain ⟨p, hp, hsuf⟩ := List.any_eq_true.mp hany
  have hpf : p <:+ lowerName f := List.isSuffixOf_iff_suffix.mp hsuf
  have hgz : ".nii.gz".toList <:+ lowerName f :=
    (List.isSuffixOf_iff_suffix.mp (pattern_ends_nii_gz m p hp)).trans hpf
  have hlow : ".nii".toList <:+ lowerName f := by
    have hmap := h.map Char.toLower
    have : (".nii".toList).map Char.toLower = ".nii".toList := by decide
    rw [this] at hmap
    exact hmap
  have : ".nii".toList <:+ ".nii.gz".toList :=
    suffix_of_suffix_length_le hlow hgz (by decide)
  exact absurd this (by decide)

/-- The found mapping is unchanged by files that identify to no
modality. -/
theorem processFiles_all_none (l : List Filename) (found : List (Modality × Filename))
    (extra : List Filename) (errs : List VError)
    (h : ∀ f ∈ l, identify_modality f = none) :
    (processFiles l found extra errs).1 = found := by
  induction l generalizing extra errs with
  | nil => rfl
  | cons f rest ih =>
      rw [processFiles, h f (List.mem_cons_self f rest)]
      exact ih _ _ (fun g hg => h g (List.mem_cons_of_mem f hg))

/-- The is_valid field of a successful directory scan, in terms of the
found mapping of the identification loop. -/
theorem validate_is_valid (fd : Folder) (hp : fd.present = true)
    (hne : (globNifti fd.entries).isEmpty = false) :
    (validate_segmentation_files fd).is_valid =
      (modalityOrder.filter
        (fun m => ¬ foundHas (processFiles (globNifti fd.entries) [] [] []).1 m)).isEmpty := by
  rw [validate_segmentation_files]
  simp [hp, hne]

/-- C10: a filename ending in ".nii" but not in ".nii.gz" is assigned no
modality by identify_modality, because every modality pattern is anchored
to the ".nii.gz" suffix; such a name is nevertheless an accepted upload
extension, and a study folder all of whose entries are plain ".nii"
files is never validated as inference-eligible. -/
theorem plain_nii_files_unidentified (f : Filename)
    (hnii : endsWithPat f ".nii".toList = true)
    (_hngz : endsWithPat f ".nii.gz".toList = false) :
    identify_modality f = none ∧
    is_allowed_file f = true ∧
    (∀ fd : Folder,
      (∀ g ∈ fd.entries, endsWithPat g ".nii".toList = true) →
      (validate_segmentation_files fd).is_valid = false) := by
  have hsuf : ".nii".toList <:+ f := List.isSuffixOf_iff_suffix.mp hnii
  refine ⟨identify_modality_nii_none f hsuf, ?_, ?_⟩
  · have hmap := hsuf.map Char.toLower
    have heq : (".nii".toList).map Char.toLower = ".nii".toList := by decide
    rw [heq] at hmap
    refine List.any_eq_true.mpr ⟨".nii".toList, by decide, ?_⟩
    exact List.isSuffixOf_iff_suffix.mpr hmap
  · intro fd hall
    by_cases hp : fd.present = true
    · by_cases hempty : (globNifti fd.entries).isEmpty = true
      · have hnil : globNifti fd.entries = [] := List.isEmpty_iff.mp hempty
        rw [validate_segmentation_files]
        simp [hp, hnil]
      · rw [validate_is_valid fd hp (Bool.not_eq_true _ ▸ hempty)]
        have hnone : ∀ g ∈ globNifti fd.entries, identify_modality g = none := by
          intro g hg
          have hmem : g ∈ fd.entries := by
            rcases List.mem_append.mp hg with hg1 | hg2
            · exact (List.mem_filter.mp hg1).1
            · exact (List.mem_filter.mp hg2).1
          have : ".nii".toList <:+ g := List.isSuffixOf_iff_suffix.mp (hall g hmem)
          exact identify_modality_nii_none g this
        rw [processFiles_all_none _ _ _ _ hnone]
        decide
    · rw [validate_segmentation_files]
      simp [hp]

/-- Witness for plain_nii_files_unidentified at a concrete name and
folder. -/
theorem plain_nii_files_unidentified_witness :
    identify_modality "scan.nii".toList = none ∧
    (validate_segmentation_files
      ⟨true, ["a_t1n.nii".toList, "a_t1c.nii".toList,
              "a_t2w.nii".toList, "a_t2f.nii".toList]⟩).is_valid = false := by
  have h := plain_nii_files_unidentified "scan.nii".toList (by decide) (by decide)
  exact ⟨h.1, h.2.2 _ (by decide)⟩

/-- C8: upload validation accepts an advertised size equal to the
configured maximum and rejects a size one byte over it with an
HTTP 400 error (file_utils.py lines 170-175). -/
theorem upload_size_boundary (maxSize : Nat) (f : UploadFile)
    (hname : ¬ f.filename = [])
    (hext : is_allowed_file f.filename = true) :
    (f.size = some maxSize → validate_file maxSize f = .ok ()) ∧
    (f.size = some (maxSize + 1) →
      validate_file maxSize f = .error .tooLarge ∧
      uploadErrStatus .tooLarge = 400) := by
  have hne : f.filename.isEmpty = false := by
    simpa [List.isEmpty_iff] using hname
  constructor
  · intro hs
    simp [validate_file, hne, hext, hs, lt_irrefl]
  · intro hs
    refine ⟨?_, rfl⟩
    simp [validate_file, hne, hext, hs, Nat.lt_succ_self]

/-- Witness for upload_size_boundary at the configured default
MAX_FILE_SIZE. -/
theorem upload_size_boundary_witness :
    validate_file MAX_FILE_SIZE ⟨"scan.nii".toList, some MAX_FILE_SIZE⟩ = .ok () ∧
    validate_file MAX_FILE_SIZE ⟨"scan.nii".toList, some (MAX_FILE_SIZE + 1)⟩ =
      .error .tooLarge := by
  refine ⟨(upload_size_boundary MAX_FILE_SIZE _ (by decide) (by decide)).1 rfl, ?_⟩
  exact ((upload_size_boundary MAX_FILE_SIZE _ (by decide) (by decide)).2 rfl).1

/-- C4 (divergence witness): on a corrupt archive, extract_zip_file
reports the error while the freshly created extraction directory is kept
(the BadZipFile handler re-raises without running the cleanup handler)
and the archive file is kept; on a mid-extraction failure the directory
is removed and the archive kept; on success the archive is removed.
save_file reports the corrupt case as a failed ZIP with the archive
retained. -/
theorem extract_zip_cleanup_behaviour :
    (extract_zip_file .corruptArchive =
      (.error .corruptZip, { extractDirKept := true, zipFileKept := true })) ∧
    (extract_zip_file .entryFailure =
      (.error .extractionFailed, { extractDirKept := false, zipFileKept := true })) ∧
    (∀ l, (extract_zip_file (.archiveEntries l)).2 =
      { extractDirKept := true, zipFileKept := false }) ∧
    (save_file_zip .corruptArchive =
      (.zipFailed .corruptZip, { extractDirKept := true, zipFileKept := true })) :=
  ⟨rfl, rfl, fun _ => rfl, rfl⟩

/-- C3 (divergence witness): a failing predict does run force_gpu_cleanup
before the error is reported (the cleanup event follows the attempted
forward call, and the model reference is gone), but force_gpu_cleanup
leaves is_loaded set, so the subsequent ensure_model_loaded is a no-op
and the next predict fails with the not-loaded error instead of
triggering a reload. -/
theorem predict_failure_leaves_wrapper_stuck :
    (predict false true NUM_CHANNELS ⟨some (), true, 0, 5⟩ =
      (.error .inferenceError, ⟨none, true, 0, 5⟩, [.innerForward, .cleanup])) ∧
    (ensure_model_loaded true ⟨none, true, 0, 5⟩ = (true, ⟨none, true, 0, 5⟩, [])) ∧
    (predict true true NUM_CHANNELS ⟨none, true, 0, 5⟩ =
      (.error .notLoaded, ⟨none, true, 0, 5⟩, [])) :=
  ⟨rfl, rfl, rfl⟩

/-- C5: the wrapper counts successful forward calls and resets the count
on every successful (re)load; the default threshold is 5; a predict call
that begins at or above the threshold runs force_gpu_cleanup followed by
load_model (which itself runs its preventive cleanup) before the inner
forward call, leaving the counter at 1 after the successful call. -/
theorem preventive_reload_policy (s : WState) (loadOk : Bool)
    (hload : s.is_loaded = true) (hmodel : s.model = some ()) :
    initWrapper.max_inferences_before_cleanup = 5 ∧
    (load_model true s).2.1.inference_count = 0 ∧
    (s.inference_count < s.max_inferences_before_cleanup →
      predict true loadOk NUM_CHANNELS s =
        (.ok (), { s with inference_count := s.inference_count + 1 },
         [.innerForward])) ∧
    (s.max_inferences_before_cleanup ≤ s.inference_count →
      predict true true NUM_CHANNELS s =
        (.ok (),
         { s with model := some (), is_loaded := true, inference_count := 1 },
         [.cleanup, .cleanup, .modelLoad, .innerForward])) := by
  refine ⟨rfl, ?_, ?_, ?_⟩
  · simp [load_model, force_gpu_cleanup]
  · intro hlt
    simp [predict, predictInner, hload, hmodel, Nat.not_le.mpr hlt]
  · intro hge
    simp [predict, predictInner, load_model, force_gpu_cleanup, hload, hmodel, hge]

/-- Witness for preventive_reload_policy: a loaded wrapper at the default
threshold reloads before the forward call; one below the threshold just
increments its counter. -/
theorem preventive_reload_policy_witness :
    predict true true NUM_CHANNELS ⟨some (), true, 5, 5⟩ =
      (.ok (), ⟨some (), true, 1, 5⟩, [.cleanup, .cleanup, .modelLoad, .innerForward]) ∧
    predict true true NUM_CHANNELS ⟨some (), true, 2, 5⟩ =
      (.ok (), ⟨some (), true, 3, 5⟩, [.innerForward]) := by
  constructor
  · exact (preventive_reload_policy ⟨some (), true, 5, 5⟩ true rfl rfl).2.2.2 (by decide)
  · exact (preventive_reload_policy ⟨some (), true, 2, 5⟩ true rfl rfl).2.2.1 (by decide)

/-- C2: with force_reprocess false, a cache probe that finds a
segmentation and, when an overlay is requested, also an overlay, makes
run_inference_pipeline return the cached result carrying the existing
paths with no stage entered; in every other case the processing path is
taken: the result is not cached, the preprocess stage is entered first,
and when every stage succeeds the stage list is exactly preprocess,
predict, postprocess, the overlay stage when requested, and the save
stage when saving. -/
theorem cache_short_circuit (rf : ResultsFolder) (env : StageOutcomes)
    (folderName : Filename) (save_result create_overlay : Bool) :
    ((check_existing_result rf).1.isSome = true →
     (¬ create_overlay = true ∨ (check_existing_result rf).2.isSome = true) →
      run_inference_pipeline rf env folderName save_result false create_overlay =
        ({ success := true, cached := true,
           saved_path := (check_existing_result rf).1,
           overlay_path := (check_existing_result rf).2 }, [])) ∧
    (¬ ((check_existing_result rf).1.isSome = true ∧
        (¬ create_overlay = true ∨ (check_existing_result rf).2.isSome = true)) →
      (run_inference_pipeline rf env folderName save_result false create_overlay).1.cached
          = false ∧
      Stage.preprocessStage ∈
        (run_inference_pipeline rf env folderName save_result false create_overlay).2 ∧
      (env = ⟨true, true, true, true, true⟩ →
        (run_inference_pipeline rf env folderName save_result false create_overlay).2 =
          [.preprocessStage, .predictStage, .postprocessStage] ++
            (if create_overlay then [.overlayStage] else []) ++
            (if save_result then [.saveStage] else []))) := by
  constructor
  · intro hseg hov
    rw [run_inference_pipeline, if_pos]
    exact ⟨by simp, hseg, hov⟩
  · intro hmiss
    have hcond : ¬ (¬ (false : Bool) = true ∧
        (check_existing_result rf).1.isSome = true ∧
        (¬ create_overlay = true ∨ (check_existing_result rf).2.isSome = true)) := by
      intro h
      exact hmiss ⟨h.2.1, h.2.2⟩
    rw [run_inference_pipeline, if_neg hcond]
    rcases env with ⟨pre, prd, post, ov, sv⟩
    cases pre <;> cases prd <;> cases post <;> cases ov <;> cases sv <;>
      cases create_overlay <;> cases save_result <;> simp [pipelineErrorResult]

/-- Witness for cache_short_circuit: a populated results folder is served
from cache with no stage entered; an absent folder runs all five stages. -/
theorem cache_short_circuit_witness :
    run_inference_pipeline
        ⟨some ["study-seg.nii.gz".toList, "study-overlay.nii.gz".toList]⟩
        ⟨true, true, true, true, true⟩ "study".toList true false true =
      ({ success := true, cached := true,
         saved_path := some "study-seg.nii.gz".toList,
         overlay_path := some "study-overlay.nii.gz".toList }, []) ∧
    (run_inference_pipeline ⟨none⟩ ⟨true, true, true, true, true⟩
        "study".toList true false true).2 =
      [.preprocessStage, .predictStage, .postprocessStage, .overlayStage,
       .saveStage] := by
  constructor
  · exact (cache_short_circuit _ _ _ true true).1 (by decide) (by decide)
  · have h := ((cache_short_circuit ⟨none⟩ ⟨true, true, true, true, true⟩
      "study".toList true true).2 (by decide)).2.2 rfl
    simpa using h

/-- Every foreground class id is below NUM_CLASSES. -/
theorem fgClasses_lt : ∀ cl ∈ fgClasses, cl < NUM_CLASSES := by decide

/-- Writing a class label onto a cleaned mask keeps values in range. -/
theorem write_label_lt (b1 b2 : Bool) (cl x : Nat) (hcl : cl < NUM_CLASSES)
    (hx : x < NUM_CLASSES) :
    (if b1 = true then cl else if b2 = true then 0 else x) < NUM_CLASSES := by
  cases b1
  · cases b2
    · simpa using hx
    · simp [NUM_CLASSES]
  · simpa using hcl

/-- morphStep only writes the class label or background. -/
theorem morphStep_lt {a b c : Nat} (fill_holes : Bool) (p : Seg a b c)
    (cl : Nat) (hcl : cl < NUM_CLASSES) (hp : ∀ v, p v < NUM_CLASSES) :
    ∀ v, morphStep fill_holes p cl v < NUM_CLASSES := by
  intro v
  rw [morphStep]
  split
  · exact hp v
  · dsimp only
    exact write_label_lt _ _ cl (p v) hcl (hp v)

/-- removeStep only clears voxels. -/
theorem removeStep_lt {a b c : Nat} (p : Seg a b c) (cl : Nat)
    (hp : ∀ v, p v < NUM_CLASSES) : ∀ v, removeStep p cl v < NUM_CLASSES := by
  intro v
  rw [removeStep]
  split
  · exact hp v
  · dsimp only
    split
    · simp [NUM_CLASSES]
    · exact hp v

/-- A fold of morphStep over classes below NUM_CLASSES preserves the
value range. -/
theorem foldl_morphStep_lt {a b c : Nat} (fill_holes : Bool) :
    ∀ (l : List Nat), (∀ cl ∈ l, cl < NUM_CLASSES) →
      ∀ (p : Seg a b c), (∀ v, p v < NUM_CLASSES) →
      ∀ v, (l.foldl (morphStep fill_holes) p) v < NUM_CLASSES := by
  intro l
  induction l with
  | nil => intro _ p hp v; exact hp v
  | cons cl rest ih =>
      intro hl p hp v
      rw [List.foldl_cons]
      exact ih (fun x hx => hl x (List.mem_cons_of_mem cl hx)) _
        (morphStep_lt fill_holes p cl (hl cl (List.mem_cons_self cl rest)) hp) v

/-- A fold of removeStep preserves the value range. -/
theorem foldl_removeStep_lt {a b c : Nat} :
    ∀ (l : List Nat) (p : Seg a b c), (∀ v, p v < NUM_CLASSES) →
      ∀ v, (l.foldl removeStep p) v < NUM_CLASSES := by
  intro l
  induction l with
  | nil => intro p hp v; exact hp v
  | cons cl rest ih =>
      intro p hp v
      rw [List.foldl_cons]
      exact ih _ (removeStep_lt p cl hp) v

/-- C6: the full postprocess pipeline with the constructor defaults, on a
(5, 128, 128, 128) prediction tensor or a batched (1, 5, 128, 128, 128)
tensor, returns a (128, 128, 128) volume (enforced by the result type)
whose every voxel value lies in {0, 1, 2, 3, 4}. -/
theorem postprocess_values_in_range (expF : ℚ → ℚ) :
    (∀ (pred : Fin NUM_CLASSES → Vox 128 128 128 → ℚ) (v : Vox 128 128 128),
      postprocess_segmentation expF true true true pred v < NUM_CLASSES) ∧
    (∀ (pred : Fin 1 → Fin NUM_CLASSES → Vox 128 128 128 → ℚ) (v : Vox 128 128 128),
      postprocess_segmentation_batched expF true true true pred v < NUM_CLASSES) := by
  constructor
  · intro pred v
    rw [postprocess_segmentation, remove_small_connected_components, if_pos rfl,
      apply_morphological_operations, if_pos rfl]
    exact foldl_removeStep_lt fgClasses _
      (foldl_morphStep_lt true fgClasses fgClasses_lt _
        (fun w => (torchArgmax _).isLt)) v
  · intro pred v
    rw [postprocess_segmentation_batched, remove_small_connected_components, if_pos rfl,
      apply_morphological_operations, if_pos rfl]
    exact foldl_removeStep_lt fgClasses _
      (foldl_morphStep_lt true fgClasses fgClasses_lt _
        (fun w => (torchArgmax _).isLt)) v

/-!
Lemmas about the identification loop, used for the Modality Resolver
claims.
-/

/-- foundHas on a mapping extended at the right. -/
theorem foundHas_append (found : List (Modality × Filename)) (m m' : Modality)
    (f : Filename) :
    foundHas (found ++ [(m', f)]) m = (foundHas found m || decide (m' = m)) := by
  rw [foundHas, foundHas, List.find?_append, Option.isSome_or]
  cases h : decide (m' = m)
  · rw [show List.find? (fun q => decide (q.1 = m)) [(m', f)] = none from by
      rw [List.find?_cons]; simp [h]]
    rfl
  · rw [show List.find? (fun q => decide (q.1 = m)) [(m', f)] = some (m', f) from by
      rw [List.find?_cons]; simp [h]]
    rfl

/-- A modality is in the final found mapping exactly when it was already
found or some remaining file identifies to it. -/
theorem foundHas_processFiles (l : List Filename) :
    ∀ (found : List (Modality × Filename)) (extra : List Filename)
      (errs : List VError) (m : Modality),
      foundHas (processFiles l found extra errs).1 m = true ↔
        foundHas found m = true ∨ ∃ f ∈ l, identify_modality f = some m := by
  induction l with
  | nil => intro found extra errs m; simp [processFiles]
  | cons f rest ih =>
      intro found extra errs m
      rw [processFiles]
      cases hid : identify_modality f with
      | none =>
          dsimp only
          rw [ih]
          constructor
          · rintro (h | ⟨g, hg, hgid⟩)
            · exact Or.inl h
            · exact Or.inr ⟨g, List.mem_cons_of_mem f hg, hgid⟩
          · rintro (h | ⟨g, hg, hgid⟩)
            · exact Or.inl h
            · rcases List.mem_cons.mp hg with rfl | hg2
              · rw [hid] at hgid; exact absurd hgid (by simp)
              · exact Or.inr ⟨g, hg2, hgid⟩
      | some m2 =>
          dsimp only
          cases hfind2 : List.find? (fun q => decide (q.1 = m2)) found with
          | some q2 =>
              dsimp only
              rw [ih]
              by_cases hmm : m2 = m
              · subst hmm
                have hhas : foundHas found m2 = true := by
                  rw [foundHas, hfind2]; rfl
                constructor <;> intro _ <;> exact Or.inl hhas
              · constructor
                · rintro (h | ⟨g, hg, hgid⟩)
                  · exact Or.inl h
                  · exact Or.inr ⟨g, List.mem_cons_of_mem f hg, hgid⟩
                · rintro (h | ⟨g, hg, hgid⟩)
                  · exact Or.inl h
                  · rcases List.mem_cons.mp hg with rfl | hg2
                    · rw [hid] at hgid
                      injection hgid with he
                      exact absurd he hmm
                    · exact Or.inr ⟨g, hg2, hgid⟩
          | none =>
              dsimp only
              rw [ih, foundHas_append]
              constructor
              · rintro (h | ⟨g, hg, hgid⟩)
                · rw [Bool.or_eq_true] at h
                  rcases h with h1 | h1
                  · exact Or.inl h1
                  · refine Or.inr ⟨f, List.mem_cons_self f rest, ?_⟩
                    rw [hid, of_decide_eq_true h1]
                · exact Or.inr ⟨g, List.mem_cons_of_mem f hg, hgid⟩
              · rintro (h | ⟨g, hg, hgid⟩)
                · exact Or.inl (by simp [h])
                · rcases List.mem_cons.mp hg with rfl | hg2
                  · rw [hid] at hgid
                    injection hgid with he
                    exact Or.inl (by simp [he])
                  · exact Or.inr ⟨g, hg2, hgid⟩

/-- The error accumulator only grows: the result extends the initial
list. -/
theorem processFiles_errs_extends (l : List Filename) :
    ∀ (found : List (Modality × Filename)) (extra : List Filename)
      (errs : List VError),
      ∃ t, (processFiles l found extra errs).2.2 = errs ++ t := by
  induction l with
  | nil => intro found extra errs; exact ⟨[], (List.append_nil errs).symm⟩
  | cons f rest ih =>
      intro found extra errs
      rw [processFiles]
      cases hid : identify_modality f with
      | none => exact ih found (extra ++ [f]) errs
      | some m2 =>
          dsimp only
          cases hfind : List.find? (fun q => decide (q.1 = m2)) found with
          | some q =>
              dsimp only
              obtain ⟨t, ht⟩ := ih found extra (errs ++ [.duplicate m2 q.2 f])
              exact ⟨.duplicate m2 q.2 f :: t, by rw [ht, List.append_assoc]; rfl⟩
          | none => exact ih (found ++ [(m2, f)]) extra errs

/-- When a modality is matched at least twice (counting a match already
in the found mapping), the loop records a duplicate error for it. -/
theorem processFiles_duplicate (l : List Filename) :
    ∀ (found : List (Modality × Filename)) (extra : List Filename)
      (errs : List VError) (m : Modality),
      2 ≤ (l.filter (fun f => identify_modality f = some m)).length +
        (if foundHas found m = true then 1 else 0) →
      ∃ f g, VError.duplicate m f g ∈ (processFiles l found extra errs).2.2 := by
  induction l with
  | nil =>
      intro found extra errs m h
      simp only [List.filter_nil, List.length_nil, Nat.zero_add] at h
      split at h <;> omega
  | cons f rest ih =>
      intro found extra errs m h
      rw [processFiles]
      cases hid : identify_modality f with
      | none =>
          dsimp only
          apply ih
          simpa [List.filter_cons, hid] using h
      | some m2 =>
          dsimp only
          by_cases hm : m2 = m
          · subst hm
            cases hfind : List.find? (fun q => decide (q.1 = m2)) found with
            | some q =>
                dsimp only
                obtain ⟨t, ht⟩ :=
                  processFiles_errs_extends rest found extra
                    (errs ++ [.duplicate m2 q.2 f])
                refine ⟨q.2, f, ?_⟩
                rw [ht]
                exact List.mem_append_left _
                  (List.mem_append_right _ (List.mem_singleton.mpr rfl))
            | none =>
                dsimp only
                apply ih
                have hhas : foundHas found m2 = false := by
                  rw [foundHas, hfind]; rfl
                have hnew : foundHas (found ++ [(m2, f)]) m2 = true := by
                  rw [foundHas_append]; simp
                rw [hnew, if_pos rfl]
                simp [List.filter_cons, hid, hhas] at h
                omega
          · cases hfind : List.find? (fun q => decide (q.1 = m2)) found with
            | some q =>
                dsimp only
                apply ih
                simpa [List.filter_cons, hid, hm] using h
            | none =>
                dsimp only
                apply ih
                have hsame : foundHas (found ++ [(m2, f)]) m = foundHas found m := by
                  rw [foundHas_append]
                  simp [hm]
                rw [hsame]
                simpa [List.filter_cons, hid, hm] using h

/-- The missing list of a successful directory scan. -/
theorem validate_missing (fd : Folder) (hp : fd.present = true)
    (hne : (globNifti fd.entries).isEmpty = false) :
    (validate_segmentation_files fd).missing_modalities =
      modalityOrder.filter
        (fun m => ¬ foundHas (processFiles (globNifti fd.entries) [] [] []).1 m) := by
  rw [validate_segmentation_files]
  simp [hp, hne]

/-- Errors recorded by the identification loop appear in the report. -/
theorem validate_mem_errors (fd : Folder) (hp : fd.present = true)
    (hne : (globNifti fd.entries).isEmpty = false) (e : VError)
    (he : e ∈ (processFiles (globNifti fd.entries) [] [] []).2.2) :
    e ∈ (validate_segmentation_files fd).validation_errors := by
  rw [validate_segmentation_files]
  simp only [hp, Bool.true_eq_false, not_true_eq_false, if_false, hne,
    Bool.false_eq_true]
  split
  · exact he
  · exact List.mem_append_left _ he

/-- Every modality occurs in the required-order listing. -/
theorem mem_modalityOrder : ∀ m : Modality, m ∈ modalityOrder := by decide

/-- C1 (counterexample): a folder holding all four modalities plus a
second file matching t1c is reported with is_valid true even though a
duplicate-modality error was recorded. -/
theorem duplicate_modality_counterexample :
    (validate_segmentation_files ⟨true,
      ["t1n.nii.gz".toList, "t1c.nii.gz".toList, "t2w.nii.gz".toList,
       "t2f.nii.gz".toList, "extra_t1c.nii.gz".toList]⟩).is_valid = true ∧
    VError.duplicate .t1c "t1c.nii.gz".toList "extra_t1c.nii.gz".toList ∈
      (validate_segmentation_files ⟨true,
        ["t1n.nii.gz".toList, "t1c.nii.gz".toList, "t2w.nii.gz".toList,
         "t2f.nii.gz".toList, "extra_t1c.nii.gz".toList]⟩).validation_errors := by
  decide

/-- C1 (amended): a modality matched by more than one file makes the
report carry a duplicate-modality error, but is_valid is not forced to
false: it is true exactly when every one of the four modalities is
matched by at least one file, so a study with all four present plus a
duplicate is still reported eligible. -/
theorem duplicate_modality_error_and_validity (fd : Folder) (m : Modality)
    (hp : fd.present = true)
    (hdup : 2 ≤ ((globNifti fd.entries).filter
      (fun f => identify_modality f = some m)).length) :
    (∃ f g, VError.duplicate m f g ∈
      (validate_segmentation_files fd).validation_errors) ∧
    ((validate_segmentation_files fd).is_valid = true ↔
      ∀ m' : Modality, ∃ f ∈ globNifti fd.entries,
        identify_modality f = some m') := by
  have hne : (globNifti fd.entries).isEmpty = false := by
    cases hE : (globNifti fd.entries).isEmpty
    · rfl
    · rw [List.isEmpty_iff.mp hE] at hdup
      simp at hdup
  constructor
  · obtain ⟨f, g, hmem⟩ :=
      processFiles_duplicate (globNifti fd.entries) [] [] [] m
        (by simpa [foundHas] using hdup)
    exact ⟨f, g, validate_mem_errors fd hp hne _ hmem⟩
  · rw [validate_is_valid fd hp hne, List.isEmpty_iff, List.filter_eq_nil_iff]
    constructor
    · intro h m'
      have h2 := h m' (mem_modalityOrder m')
      simp only [decide_eq_true_eq, not_not] at h2
      have h3 := (foundHas_processFiles (globNifti fd.entries) [] [] [] m').mp h2
      simpa [foundHas] using h3
    · intro h m' _
      have h2 : foundHas (processFiles (globNifti fd.entries) [] [] []).1 m' = true :=
        (foundHas_processFiles (globNifti fd.entries) [] [] [] m').mpr (Or.inr (h m'))
      simp [h2]

/-- Witness for duplicate_modality_error_and_validity at the
counterexample folder. -/
theorem duplicate_modality_error_and_validity_witness :
    (∃ f g, VError.duplicate .t1c f g ∈
      (validate_segmentation_files ⟨true,
        ["t1n.nii.gz".toList, "t1c.nii.gz".toList, "t2w.nii.gz".toList,
         "t2f.nii.gz".toList, "extra_t1c.nii.gz".toList]⟩).validation_errors) ∧
    ((validate_segmentation_files ⟨true,
        ["t1n.nii.gz".toList, "t1c.nii.gz".toList, "t2w.nii.gz".toList,
         "t2f.nii.gz".toList, "extra_t1c.nii.gz".toList]⟩).is_valid = true ↔
      ∀ m' : Modality, ∃ f ∈ globNifti
        ["t1n.nii.gz".toList, "t1c.nii.gz".toList, "t2w.nii.gz".toList,
         "t2f.nii.gz".toList, "extra_t1c.nii.gz".toList],
        identify_modality f = some m') :=
  duplicate_modality_error_and_validity _ .t1c (by decide) (by decide)

/-- C9 (counterexample): two listings of the same directory contents in
different filesystem orders yield different reports: the chosen file for
the duplicated t1c modality and the duplicate-error operands swap. -/
theorem resolver_order_counterexample :
    (["a_t1c.nii.gz".toList, "b_t1c.nii.gz".toList] : List Filename).Perm
      ["b_t1c.nii.gz".toList, "a_t1c.nii.gz".toList] ∧
    validate_segmentation_files
        ⟨true, ["a_t1c.nii.gz".toList, "b_t1c.nii.gz".toList]⟩ ≠
      validate_segmentation_files
        ⟨true, ["b_t1c.nii.gz".toList, "a_t1c.nii.gz".toList]⟩ := by
  decide

/-- C9 (amended): the resolver is a pure function of the listing, so two
calls observing the same entries in the same order return equal reports;
the code does not sort, and across permutations of the same contents only
the eligibility verdict and the missing-modalities list are invariant
(the chosen files and error operands may differ, as the counterexample
shows). -/
theorem resolver_determinism_and_invariants (fd₁ fd₂ : Folder)
    (hp : fd₁.present = fd₂.present) (hperm : fd₁.entries.Perm fd₂.entries) :
    (fd₁.entries = fd₂.entries →
      validate_segmentation_files fd₁ = validate_segmentation_files fd₂) ∧
    (validate_segmentation_files fd₁).is_valid =
      (validate_segmentation_files fd₂).is_valid ∧
    (validate_segmentation_files fd₁).missing_modalities =
      (validate_segmentation_files fd₂).missing_modalities := by
  have hpermN : (globNifti fd₁.entries).Perm (globNifti fd₂.entries) :=
    (hperm.filter _).append (hperm.filter _)
  refine ⟨?_, ?_⟩
  · intro he
    have : fd₁ = fd₂ := by
      cases fd₁; cases fd₂
      simp only at hp he
      simp [hp, he]
    rw [this]
  by_cases hp1 : fd₁.present = true
  · have hp2 : fd₂.present = true := hp ▸ hp1
    by_cases hne1 : (globNifti fd₁.entries).isEmpty = true
    · have hnil1 : globNifti fd₁.entries = [] := List.isEmpty_iff.mp hne1
      have hnil2 : globNifti fd₂.entries = [] := (hnil1 ▸ hpermN).symm.eq_nil
      rw [validate_segmentation_files, validate_segmentation_files]
      simp [hp1, hp2, hnil1, hnil2]
    · have hne1f : (globNifti fd₁.entries).isEmpty = false :=
        Bool.not_eq_true _ ▸ hne1
      have hne2f : (globNifti fd₂.entries).isEmpty = false := by
        cases hE : (globNifti fd₂.entries).isEmpty
        · rfl
        · have hnil2 : globNifti fd₂.entries = [] := List.isEmpty_iff.mp hE
          have hnil1 : globNifti fd₁.entries = [] := (hnil2 ▸ hpermN).eq_nil
          exact absurd (List.isEmpty_iff.mpr hnil1) hne1
      have hkey : ∀ m, foundHas (processFiles (globNifti fd₁.entries) [] [] []).1 m =
          foundHas (processFiles (globNifti fd₂.entries) [] [] []).1 m := by
        intro m
        rw [Bool.eq_iff_iff, foundHas_processFiles, foundHas_processFiles]
        constructor
        · rintro (h | ⟨g, hg, hgid⟩)
          · exact Or.inl h
          · exact Or.inr ⟨g, hpermN.mem_iff.mp hg, hgid⟩
        · rintro (h | ⟨g, hg, hgid⟩)
          · exact Or.inl h
          · exact Or.inr ⟨g, hpermN.mem_iff.mpr hg, hgid⟩
      have hfilters :
          modalityOrder.filter
            (fun m => ¬ foundHas (processFiles (globNifti fd₁.entries) [] [] []).1 m) =
          modalityOrder.filter
            (fun m => ¬ foundHas (processFiles (globNifti fd₂.entries) [] [] []).1 m) :=
        List.filter_congr (fun m _ => by rw [hkey m])
      refine ⟨?_, ?_⟩
      · rw [validate_is_valid fd₁ hp1 hne1f, validate_is_valid fd₂ hp2 hne2f, hfilters]
      · rw [validate_missing fd₁ hp1 hne1f, validate_missing fd₂ hp2 hne2f, hfilters]
  · have hp2 : ¬ fd₂.present = true := hp ▸ hp1
    rw [validate_segmentation_files, validate_segmentation_files]
    simp [hp1, hp2]

/-- Witness for resolver_determinism_and_invariants at the two listings
of the counterexample. -/
theorem resolver_determinism_and_invariants_witness :
    (validate_segmentation_files
      ⟨true, ["a_t1c.nii.gz".toList, "b_t1c.nii.gz".toList]⟩).is_valid =
    (validate_segmentation_files
      ⟨true, ["b_t1c.nii.gz".toList, "a_t1c.nii.gz".toList]⟩).is_valid :=
  (resolver_determinism_and_invariants
    ⟨true, ["a_t1c.nii.gz".toList, "b_t1c.nii.gz".toList]⟩
    ⟨true, ["b_t1c.nii.gz".toList, "a_t1c.nii.gz".toList]⟩
    rfl (by decide)).2.1

/-- A removeStep for a different class leaves a voxel untouched. -/
theorem removeStep_ne {a b c : Nat} (p : Seg a b c) (cl : Nat) (v : Vox a b c)
    (h : ¬ p v = cl) : removeStep p cl v = p v := by
  rw [removeStep]
  split
  · rfl
  · dsimp only
    rw [if_neg]
    intro hc
    exact h hc.1

/-- A removeStep for a different foreground class does not change the
mask of a class: it only writes background onto its own class. -/
theorem removeStep_mask_eq {a b c : Nat} (p : Seg a b c) (cl cVal : Nat)
    (hne : ¬ cl = cVal) (h0 : ¬ cVal = 0) :
    (fun w => decide (removeStep p cl w = cVal)) =
      (fun w => decide (p w = cVal)) := by
  funext w
  rw [decide_eq_decide]
  rw [removeStep]
  split
  · exact Iff.rfl
  · dsimp only
    split
    · next hcond =>
        constructor
        · intro h00
          exact absurd h00.symm h0
        · intro hpw
          exact absurd (hcond.1.symm.trans hpw) hne
    · exact Iff.rfl

/-- Value and class mask both survive a removeStep of another class. -/
theorem removeStep_preserve {a b c : Nat} (p : Seg a b c) (cl cVal : Nat)
    (v : Vox a b c) (hne : ¬ cl = cVal) (h0 : ¬ cVal = 0) (hv : p v = cVal) :
    removeStep p cl v = cVal ∧
    (fun w => decide (removeStep p cl w = cVal)) =
      (fun w => decide (p w = cVal)) := by
  constructor
  · rw [removeStep_ne p cl v (by rw [hv]; exact fun hh => hne hh.symm)]
    exact hv
  · exact removeStep_mask_eq p cl cVal hne h0

/-- At its own class, removeStep zeroes a voxel exactly when its
connected component is below the class minimum. -/
theorem removeStep_at_class {a b c : Nat} (p : Seg a b c) (cVal : Nat)
    (v : Vox a b c) (hv : p v = cVal) :
    removeStep p cVal v =
      if (labelComponent (fun w => decide (p w = cVal)) v).card <
          MIN_COMPONENT_SIZE cVal
      then 0 else cVal := by
  have hguard : ¬ ∀ w, ¬ p w = cVal := fun hall => hall v hv
  rw [removeStep, if_neg hguard]
  by_cases hcard : (labelComponent (fun w => decide (p w = cVal)) v).card <
      MIN_COMPONENT_SIZE cVal
  · rw [if_pos ⟨hv, hcard⟩, if_pos hcard]
  · rw [if_neg (fun hco => hcard hco.2), if_neg hcard]
    exact hv

/-- C7: the component-filtering step keeps a voxel of foreground class c
whose connected component (6-connectivity, within the class mask) has
exactly the class-minimum number of voxels, and zeroes it when the
component has one voxel fewer. -/
theorem component_size_threshold {a b c : Nat} (p : Seg a b c) (cVal : Nat)
    (v : Vox a b c) (hc : cVal ∈ fgClasses) (hv : p v = cVal) :
    ((labelComponent (fun w => decide (p w = cVal)) v).card =
        MIN_COMPONENT_SIZE cVal →
      remove_small_connected_components true p v = cVal) ∧
    ((labelComponent (fun w => decide (p w = cVal)) v).card =
        MIN_COMPONENT_SIZE cVal - 1 →
      remove_small_connected_components true p v = 0) := by
  have hfold : remove_small_connected_components true p =
      removeStep (removeStep (removeStep (removeStep p 1) 2) 3) 4 := rfl
  have hcases : cVal = 1 ∨ cVal = 2 ∨ cVal = 3 ∨ cVal = 4 := by
    have hfg : fgClasses = [1, 2, 3, 4] := by decide
    rw [hfg] at hc
    simpa using hc
  rcases hcases with rfl | rfl | rfl | rfl
  · have hat := removeStep_at_class p 1 v hv
    constructor
    · intro hcard
      rw [hcard] at hat
      rw [if_neg (lt_irrefl _)] at hat
      rw [hfold,
        removeStep_ne _ 4 v (by
          rw [removeStep_ne _ 3 v (by rw [removeStep_ne _ 2 v (by rw [hat]; decide), hat]; decide),
            removeStep_ne _ 2 v (by rw [hat]; decide), hat]; decide),
        removeStep_ne _ 3 v (by rw [removeStep_ne _ 2 v (by rw [hat]; decide), hat]; decide),
        removeStep_ne _ 2 v (by rw [hat]; decide)]
      exact hat
    · intro hcard
      rw [hcard] at hat
      rw [if_pos (by decide)] at hat
      rw [hfold,
        removeStep_ne _ 4 v (by
          rw [removeStep_ne _ 3 v (by rw [removeStep_ne _ 2 v (by rw [hat]; decide), hat]; decide),
            removeStep_ne _ 2 v (by rw [hat]; decide), hat]; decide),
        removeStep_ne _ 3 v (by rw [removeStep_ne _ 2 v (by rw [hat]; decide), hat]; decide),
        removeStep_ne _ 2 v (by rw [hat]; decide)]
      exact hat
  · obtain ⟨hv1, hm1⟩ := removeStep_preserve p 1 2 v (by decide) (by decide) hv
    have hat := removeStep_at_class (removeStep p 1) 2 v hv1
    rw [hm1] at hat
    constructor
    · intro hcard
      rw [hcard] at hat
      rw [if_neg (lt_irrefl _)] at hat
      rw [hfold,
        removeStep_ne _ 4 v (by rw [removeStep_ne _ 3 v (by rw [hat]; decide), hat]; decide),
        removeStep_ne _ 3 v (by rw [hat]; decide)]
      exact hat
    · intro hcard
      rw [hcard] at hat
      rw [if_pos (by decide)] at hat
      rw [hfold,
        removeStep_ne _ 4 v (by rw [removeStep_ne _ 3 v (by rw [hat]; decide), hat]; decide),
        removeStep_ne _ 3 v (by rw [hat]; decide)]
      exact hat
  · obtain ⟨hv1, hm1⟩ := removeStep_preserve p 1 3 v (by decide) (by decide) hv
    obtain ⟨hv2, hm2⟩ :=
      removeStep_preserve (removeStep p 1) 2 3 v (by decide) (by decide) hv1
    have hat := removeStep_at_class (removeStep (removeStep p 1) 2) 3 v hv2
    rw [hm2, hm1] at hat
    constructor
    · intro hcard
      rw [hcard] at hat
      rw [if_neg (lt_irrefl _)] at hat
      rw [hfold, removeStep_ne _ 4 v (by rw [hat]; decide)]
      exact hat
    · intro hcard
      rw [hcard] at hat
      rw [if_pos (by decide)] at hat
      rw [hfold, removeStep_ne _ 4 v (by rw [hat]; decide)]
      exact hat
  · obtain ⟨hv1, hm1⟩ := removeStep_preserve p 1 4 v (by decide) (by decide) hv
    obtain ⟨hv2, hm2⟩ :=
      removeStep_preserve (removeStep p 1) 2 4 v (by decide) (by decide) hv1
    obtain ⟨hv3, hm3⟩ :=
      removeStep_preserve (removeStep (removeStep p 1) 2) 3 4 v
        (by decide) (by decide) hv2
    have hat :=
      removeStep_at_class (removeStep (removeStep (removeStep p 1) 2) 3) 4 v hv3
    rw [hm3, hm2, hm1] at hat
    constructor
    · intro hcard
      rw [hcard] at hat
      rw [if_neg (lt_irrefl _)] at hat
      rw [hfold]
      exact hat
    · intro hcard
      rw [hcard] at hat
      rw [if_pos (by decide)] at hat
      rw [hfold]
      exact hat

/-- Witness for component_size_threshold on a 20-by-1-by-1 grid: a line
of 20 class-3 voxels (the class minimum for c = 3) survives; a line of 19
is zeroed. -/
theorem component_size_threshold_witness :
    remove_small_connected_components true
      (fun _ => 3 : Seg 20 1 1) (0, 0, 0) = 3 ∧
    remove_small_connected_components true
      (fun v => if v.1.val < 19 then 3 else 0 : Seg 20 1 1) (0, 0, 0) = 0 := by
  constructor
  · exact (component_size_threshold (fun _ => 3) 3 (0, 0, 0)
      (by decide) rfl).1 (by decide)
  · exact (component_size_threshold (fun v => if v.1.val < 19 then 3 else 0)
      3 (0, 0, 0) (by decide) (by decide)).2 (by decide)
